import Mathlib

/-!
Verification of the targeting engine and compilation orchestrator of
webpack-babel-multi-target-plugin, shallowly embedded from
`src/babel.target.single.entry.dependency.ts` (the `TargetingPlugin` and
`BabelTargetSingleEntryDependency` classes) and
`src/webpack.babel.multi.target.plugin.js` (the `WebpackBabelMultiTargetPlugin`
orchestrator).  Machinery the source imports from files that are not part of
the two source files (the `BabelTarget` helpers, constants) is modelled from
the specification and marked as such in doc comments.
-/

deriving instance DecidableEq for Except

/-- A regular expression, modelled extensionally by its match predicate on
strings.  The source only ever calls `pattern.test(string)`. -/
structure Pattern where
  test : String → Bool

/-- String suffix test over the underlying character lists (kernel-reducible,
unlike `String.endsWith`). -/
def strEndsWith (s suffix : String) : Bool :=
  suffix.data.isSuffixOf s.data

/-- String start test over the underlying character lists (kernel-reducible,
unlike `String.startsWith`). -/
def strStartsWith (s start : String) : Bool :=
  start.data.isPrefixOf s.data

/-- The single member of the source constant `NOT_TARGETED`, the regex
`/\.s?css$/` : matches strings ending in `.css` or `.scss`. -/
def cssPattern : Pattern :=
  ⟨fun s => strEndsWith s ".css" || strEndsWith s ".scss"⟩

/-- `NOT_TARGETED` from `babel.target.single.entry.dependency.ts`. -/
def NOT_TARGETED : List Pattern := [cssPattern]

/-- Modelled from the spec: a Build Target descriptor (spec section 3) with its
unique `key`, profile classification (`browserProfile`) and opaque per-target
transform options (held abstract as a string).  The `BabelTarget` class itself
is not among the source files. -/
structure BabelTarget where
  key : String
  profile : String
  options : String
deriving DecidableEq

/-- Modelled from the spec: a module request string that "can carry an embedded
target tag (a suffix/query fragment matching tagSyntax)" (spec section 3).  The
tag grammar is unambiguous by spec section 6, so a request string is modelled
as its untagged base together with the optional embedded target key. -/
structure Request where
  base : String
  tag : Option String
deriving DecidableEq

/-- The tag grammar marker used by the spec scenarios (spec section 8),
as in `./app.js?babelTarget=legacy`. -/
def TAG_MARKER : String := "?babelTarget="

/-- Render a request back to the raw string form the source manipulates. -/
def Request.toStr (r : Request) : String :=
  r.base ++ (match r.tag with
    | none => ""
    | some k => TAG_MARKER ++ k)

/-- Modelled from the spec (section 4.1): `target.getTargetedRequest(request)`
"appends this target's tag if absent". -/
def BabelTarget.getTargetedRequest (t : BabelTarget) (r : Request) : Request :=
  match r.tag with
  | some _ => r
  | none => ⟨r.base, some t.key⟩

/-- Modelled from the spec (section 4.1): `getTargetFromTag(request)` "parses an
embedded tag out of a request string and resolves it to a registered target
(no match means null, never throws)". -/
def getTargetFromTag (r : Request) (targets : List BabelTarget) : Option BabelTarget :=
  match r.tag with
  | none => none
  | some k => targets.find? (fun t => t.key == k)

/-- Modelled from the spec (section 4.1): `target.getTargetedAssetName(name)`
"appends a dot-key suffix for output naming". -/
def BabelTarget.getTargetedAssetName (t : BabelTarget) (name : String) : String :=
  name ++ "." ++ t.key

/-- The `ExternalsElement` union accepted by webpack: a string, a pattern, a
mapping object (only its keys matter to `isExternalRequest`), a function, or a
list of these. -/
inductive ExternalsElement where
  | str (s : String)
  | regex (p : Pattern)
  | obj (keys : List String)
  | func
  | list (elems : List ExternalsElement)

/-- Message of the error thrown by `TargetingPlugin.isExternalRequest` for a
function-valued externals declaration (line 290 of the source). -/
def EXTERNALS_FN_MSG : String := "Using an ExternalsFunctionElement is not supported"

/-- `TargetingPlugin.isExternalRequest` (source lines 275-306).  A JS falsy
externals value (`undefined`, the empty string) short-circuits to `false`;
arrays recurse over their members; a function throws; a string compares for
equality; a regex tests; any other object recurses on its key list. -/
def isExternalRequest (request : String) : Option ExternalsElement → Except String Bool
  | none => .ok false
  | some e => isExternalElem request e
where
  isExternalElem (request : String) : ExternalsElement → Except String Bool
    | .list elems => isExternalListAux request elems
    | .func => .error EXTERNALS_FN_MSG
    | .str s => .ok (if s == "" then false else request == s)
    | .regex p => .ok (p.test request)
    | .obj keys => .ok (keys.contains request)
  isExternalListAux (request : String) : List ExternalsElement → Except String Bool
    | [] => .ok false
    | e :: rest => do
      if (← isExternalElem request e) then
        return true
      else
        isExternalListAux request rest

/-- Modelled stand-in for `require.resolve('babel-loader')` (source line 57). -/
def BABEL_LOADER_PATH : String := "node_modules/babel-loader/lib/index.js"

/-- The immutable configuration of a `TargetingPlugin` instance.  The mutable
per-build state (`remainingTargets`, `babelLoaders`) is threaded explicitly
through the functions that use it. -/
structure TargetingPlugin where
  targets : List BabelTarget
  exclude : List Pattern
  doNotTarget : List Pattern
  externals : Option ExternalsElement
  babelLoaderPath : String

/-- `TargetingPlugin` constructor (source lines 62-64): stores the
configuration and sets `doNotTarget` to `NOT_TARGETED.concat(doNotTarget ||
[])`.  No validation of any kind is performed here. -/
def TargetingPlugin.new (targets : List BabelTarget) (exclude : List Pattern)
    (doNotTarget : Option (List Pattern)) (externals : Option ExternalsElement) :
    TargetingPlugin :=
  { targets := targets
    exclude := exclude
    doNotTarget := NOT_TARGETED ++ doNotTarget.getD []
    externals := externals
    babelLoaderPath := BABEL_LOADER_PATH }

/-- `TargetingPlugin.isTargetedRequest` (source lines 267-273): false when a
do-not-target pattern matches the raw request string, otherwise the negation of
`isExternalRequest` (which can throw). -/
def TargetingPlugin.isTargetedRequest (p : TargetingPlugin) (request : String) :
    Except String Bool := do
  if p.doNotTarget.any (fun pat => pat.test request) then
    return false
  else
    return !(← isExternalRequest request p.externals)

/-- The `remainingTargets` ledger (source line 59): a nested map from issuer
and request key to the remaining target list, modelled as an association list
keyed by the (issuer, key) pair.  An absent entry models the lazily
uninitialized `undefined`; a present empty list is the exhausted state (an
empty JS array is truthy, so it is never re-initialized). -/
def RemainingTargets : Type := List ((String × String) × List BabelTarget)

/-- Lookup in the blind-assignment ledger. -/
def lookupRT (st : RemainingTargets) (issuer key : String) : Option (List BabelTarget) :=
  (st.find? (fun e => e.1 == (issuer, key))).map (fun e => e.2)

/-- Store an entry in the blind-assignment ledger, replacing the first existing
entry for the pair or appending a fresh one. -/
def setRT : RemainingTargets → String → String → List BabelTarget → RemainingTargets
  | [], issuer, key, v => [((issuer, key), v)]
  | e :: rest, issuer, key, v =>
    if e.1 == (issuer, key) then ((issuer, key), v) :: rest
    else e :: setRT rest issuer key v

/-- `TargetingPlugin.getBlindTarget` (source lines 94-111): lazily initializes
the (issuer, key) entry with a copy of the full target list, throws a
`BlindTargetingError` carrying the key when the entry is exhausted, and
otherwise shifts off and returns the head. -/
def getBlindTarget (targets : List BabelTarget) (st : RemainingTargets)
    (issuer key : String) : Except String BabelTarget × RemainingTargets :=
  let st1 := if (lookupRT st issuer key).isNone then setRT st issuer key targets else st
  match lookupRT st1 issuer key with
  | none => (.error key, st1)
  | some [] => (.error key, st1)
  | some (t :: rest) => (.ok t, setRT st1 issuer key rest)

/-- Iterate `getBlindTarget` a given number of times for one fixed
(issuer, key) pair, collecting the outcomes in order. -/
def runBlind (targets : List BabelTarget) (st : RemainingTargets)
    (issuer key : String) : Nat → List (Except String BabelTarget) × RemainingTargets
  | 0 => ([], st)
  | n + 1 =>
    let (r, st1) := getBlindTarget targets st issuer key
    let (rs, st2) := runBlind targets st1 issuer key n
    (r :: rs, st2)

theorem lookupRT_setRT (st : RemainingTargets) (issuer key : String)
    (v : List BabelTarget) : lookupRT (setRT st issuer key v) issuer key = some v := by
  induction st with
  | nil => simp [setRT, lookupRT, List.find?]
  | cons e rest ih =>
    by_cases h : e.1 == (issuer, key)
    · simp [setRT, h, lookupRT, List.find?]
    · simp only [setRT, h, if_false]
      simpa [lookupRT, List.find?, h] using ih

theorem lookupRT_setRT_ne (st : RemainingTargets) (issuer key issuer' key' : String)
    (v : List BabelTarget) (h : (issuer', key') ≠ (issuer, key)) :
    lookupRT (setRT st issuer' key' v) issuer key = lookupRT st issuer key := by
  induction st with
  | nil =>
    have hb : (((issuer', key') : String × String) == (issuer, key)) = false := by
      simpa using h
    simp [setRT, lookupRT, List.find?, hb]
  | cons e rest ih =>
    by_cases he : e.1 == (issuer', key')
    · have he' : e.1 = (issuer', key') := by simpa using he
      have hb : (((issuer', key') : String × String) == (issuer, key)) = false := by
        simpa using h
      simp [setRT, he, lookupRT, List.find?, hb, he']
    · simp only [setRT, he, if_false]
      by_cases he2 : e.1 == (issuer, key)
      · simp [lookupRT, List.find?, he2]
      · simpa [lookupRT, List.find?, he2] using ih

theorem runBlind_succ (targets : List BabelTarget) (st : RemainingTargets)
    (issuer key : String) (n : Nat) :
    runBlind targets st issuer key (n + 1) =
      ((getBlindTarget targets st issuer key).1 ::
        (runBlind targets (getBlindTarget targets st issuer key).2 issuer key n).1,
       (runBlind targets (getBlindTarget targets st issuer key).2 issuer key n).2) := rfl

/-- Once the ledger holds list `l` for a pair, `l.length + 1` further calls
return exactly the members of `l` in order followed by the exhaustion error. -/
theorem runBlind_of_lookup (targets : List BabelTarget) (issuer key : String) :
    ∀ (l : List BabelTarget) (st : RemainingTargets),
      lookupRT st issuer key = some l →
      (runBlind targets st issuer key (l.length + 1)).1 =
        l.map Except.ok ++ [Except.error key] := by
  intro l
  induction l with
  | nil =>
    intro st hst
    simp [runBlind, getBlindTarget, hst]
  | cons t rest ih =>
    intro st hst
    have hsome : (lookupRT st issuer key).isNone = false := by
      simp [hst]
    have hstep : getBlindTarget targets st issuer key =
        (.ok t, setRT st issuer key rest) := by
      simp [getBlindTarget, hsome, hst]
    have hrest := ih (setRT st issuer key rest) (lookupRT_setRT st issuer key rest)
    rw [List.length_cons, runBlind_succ, hstep]
    simpa using hrest

/-- Claim C1: for a fixed (issuer, key) pair whose ledger entry is still
uninitialized and N configured targets, the first N calls to
`getBlindTarget` return each of the N configured targets exactly once, in the
configured order, and the (N+1)th call returns the fatal blind-targeting
error (carrying the key) instead of recycling targets; moreover a call for a
different (issuer, key) pair never disturbs the ledger entry of this pair. -/
theorem getBlindTarget_fifo_exhausts (targets : List BabelTarget)
    (st : RemainingTargets) (issuer key issuer' key' : String)
    (hfresh : lookupRT st issuer key = none)
    (hother : (issuer', key') ≠ (issuer, key)) :
    (runBlind targets st issuer key (targets.length + 1)).1 =
      targets.map Except.ok ++ [Except.error key] ∧
    lookupRT (getBlindTarget targets st issuer' key').2 issuer key =
      lookupRT st issuer key := by
  constructor
  · cases targets with
    | nil =>
      simp [runBlind, getBlindTarget, hfresh, lookupRT_setRT]
    | cons t rest =>
      have hinit : (lookupRT st issuer key).isNone = true := by
        simp [hfresh]
      have hstep : getBlindTarget (t :: rest) st issuer key =
          (.ok t, setRT (setRT st issuer key (t :: rest)) issuer key rest) := by
        simp [getBlindTarget, hinit, lookupRT_setRT]
      have hrest := runBlind_of_lookup (t :: rest) issuer key rest
        (setRT (setRT st issuer key (t :: rest)) issuer key rest)
        (lookupRT_setRT _ issuer key rest)
      rw [List.length_cons, runBlind_succ, hstep]
      simpa using hrest
  · unfold getBlindTarget
    by_cases hlk : (lookupRT st issuer' key').isNone
    · simp only [hlk, if_true]
      cases hc : lookupRT (setRT st issuer' key' targets) issuer' key' with
      | none => simp [lookupRT_setRT_ne st issuer key issuer' key' targets hother]
      | some l =>
        cases l with
        | nil => simp [lookupRT_setRT_ne st issuer key issuer' key' targets hother]
        | cons t rest =>
          simp [hc, lookupRT_setRT_ne _ issuer key issuer' key' rest hother,
            lookupRT_setRT_ne st issuer key issuer' key' targets hother]
    · simp only [hlk, if_false]
      cases hc : lookupRT st issuer' key' with
      | none => simp [hc]
      | some l =>
        cases l with
        | nil => simp [hc]
        | cons t rest =>
          simp [hc, lookupRT_setRT_ne st issuer key issuer' key' rest hother]

/-- Concrete witness for C1: two targets, fresh ledger. -/
def legacyTarget : BabelTarget := ⟨"legacy", "legacy", "legacy-options"⟩

def modernTarget : BabelTarget := ⟨"modern", "modern", "modern-options"⟩

theorem getBlindTarget_fifo_exhausts_witness :
    (runBlind [legacyTarget, modernTarget] [] "/src/index.js" "./app.js" 3).1 =
      [Except.ok legacyTarget, Except.ok modernTarget, Except.error "./app.js"] ∧
    lookupRT (getBlindTarget [legacyTarget, modernTarget] [] "/other" "./b.js").2
      "/src/index.js" "./app.js" =
      lookupRT [] "/src/index.js" "./app.js" := by
  have h := getBlindTarget_fifo_exhausts [legacyTarget, modernTarget] []
    "/src/index.js" "./app.js" "/other" "./b.js" (by decide) (by decide)
  exact ⟨h.1, h.2⟩

/-- The `options` object of a webpack module, as far as the engine touches it:
`targetModule` writes `module.options.babelTarget` (source line 165). -/
structure ModuleOptions where
  babelTarget : Option BabelTarget
deriving DecidableEq

/-- A webpack dependency as the engine sees it: `targetDependency` only reads
and writes `dep.request`, which may be absent (`undefined`) for dependency
kinds that carry no request. -/
structure Dep where
  request : Option Request
deriving DecidableEq

/-- A webpack normal module as the engine sees it in the `module` hook:
its request, its (possibly absent) options object, and the dependencies that
have been registered on it. -/
structure NormalModule where
  request : Request
  options : Option ModuleOptions
  dependencies : List Dep
deriving DecidableEq

/-- `TargetingPlugin.targetDependency` (source lines 174-187): skip when the
request is falsy or not a targeted request, otherwise rewrite `dep.request` to
the owning target's tagged form.  `isTargetedRequest` can throw (function
externals), which propagates. -/
def TargetingPlugin.targetDependency (p : TargetingPlugin) (dep : Dep)
    (babelTarget : BabelTarget) : Except String Dep := do
  match dep.request with
  | none => return dep
  | some r =>
    if r.toStr == "" then
      return dep
    else if !(← p.isTargetedRequest r.toStr) then
      return dep
    else
      return { dep with request := some (babelTarget.getTargetedRequest r) }

/-- `TargetingPlugin.targetModule` (source lines 150-172): if the module's
request is targeted and carries a parseable tag of a registered target, the
request is rewritten to the tagged form, the target is recorded on
`module.options.babelTarget`, and `module.addDependency` is wrapped so that
every later dependency is passed through `targetDependency` first.  The
returned `Option BabelTarget` records whether (and with which target) the
wrapping took place; `none` means the module was left untouched. -/
def TargetingPlugin.targetModule (p : TargetingPlugin) (m : NormalModule) :
    Except String (NormalModule × Option BabelTarget) := do
  if !(← p.isTargetedRequest m.request.toStr) then
    return (m, none)
  match getTargetFromTag m.request p.targets with
  | none => return (m, none)
  | some babelTarget =>
    return ({ m with
        request := babelTarget.getTargetedRequest m.request
        options := some { babelTarget := some babelTarget } },
      some babelTarget)

/-- The (possibly wrapped) `module.addDependency`: the original registers the
dependency as-is; the wrapper installed by `targetModule` (source lines
167-171) runs `targetDependency` on it first and registers the result. -/
def TargetingPlugin.addDependency (p : TargetingPlugin) (m : NormalModule)
    (wrapped : Option BabelTarget) (dep : Dep) : Except String NormalModule := do
  match wrapped with
  | none => return { m with dependencies := m.dependencies ++ [dep] }
  | some babelTarget =>
    let dep2 ← p.targetDependency dep babelTarget
    return { m with dependencies := m.dependencies ++ [dep2] }

/-- Claim C2: once `targetModule` has determined target `t` for a module,
every dependency subsequently added through the wrapped `addDependency` whose
request is eligible (non-empty, not do-not-target, not external) is registered
with its request rewritten to the tagged form for `t`; when the request was
still untagged, the registered request literally carries the tag of `t`. -/
theorem addDependency_tags_with_module_target (p : TargetingPlugin)
    (m m2 : NormalModule) (t : BabelTarget) (dep : Dep) (r : Request)
    (_hdet : p.targetModule m = .ok (m2, some t))
    (hreq : dep.request = some r)
    (hne : (r.toStr == "") = false)
    (helig : p.isTargetedRequest r.toStr = .ok true) :
    p.addDependency m2 (some t) dep =
      .ok { m2 with dependencies := m2.dependencies ++
        [{ dep with request := some (t.getTargetedRequest r) }] } ∧
    (r.tag = none → t.getTargetedRequest r = ⟨r.base, some t.key⟩) := by
  constructor
  · simp [TargetingPlugin.addDependency, TargetingPlugin.targetDependency, hreq, hne,
      helig, Except.bind, Except.map, bind, Functor.map, pure, Except.pure]
  · intro htag
    simp [BabelTarget.getTargetedRequest, htag]

def pluginW : TargetingPlugin :=
  TargetingPlugin.new [legacyTarget, modernTarget] [] none none

def moduleTagged : NormalModule := ⟨⟨"./app.js", some "legacy"⟩, none, []⟩

def moduleTagged' : NormalModule :=
  ⟨⟨"./app.js", some "legacy"⟩, some ⟨some legacyTarget⟩, []⟩

def depW : Dep := ⟨some ⟨"./lib.js", none⟩⟩

theorem addDependency_tags_with_module_target_witness :
    pluginW.addDependency moduleTagged' (some legacyTarget) depW =
      .ok { moduleTagged' with dependencies := moduleTagged'.dependencies ++ [{ depW with request := some (legacyTarget.getTargetedRequest ⟨"./lib.js", none⟩) }] } ∧
    ((⟨"./lib.js", none⟩ : Request).tag = none →
      legacyTarget.getTargetedRequest ⟨"./lib.js", none⟩ =
        ⟨"./lib.js", some legacyTarget.key⟩) :=
  addDependency_tags_with_module_target pluginW moduleTagged moduleTagged'
    legacyTarget depW ⟨"./lib.js", none⟩ (by decide) (by decide) (by decide)
    (by decide)

def moduleUntagged : NormalModule := ⟨⟨"./app.js", none⟩, none, []⟩

/-- Counterexample to claim C3: `./app.js` is an eligible, untagged request
(do-not-target does not match, no externals), yet the module-creation hook
`targetModule` leaves the module completely untouched and determines no
target - it neither falls back to blind assignment nor rewrites the request
to a tagged form. -/
theorem targetModule_untagged_untouched_cx :
    pluginW.targetModule moduleUntagged = .ok (moduleUntagged, none) ∧
    moduleUntagged.request.tag = none ∧
    pluginW.isTargetedRequest moduleUntagged.request.toStr = .ok true := by
  decide

/-- Claim C3 (amended): at module discovery, for every eligible request, the
target is determined solely by parsing an existing tag from the request: if a
registered tag is present the target is recorded on the module's options (the
request, being already tagged, is rewritten to itself), and if no tag is
present the module is left untouched - there is no blind-assignment fallback
in this hook (blind assignment only happens later, at the after-resolve
stage). -/
theorem targetModule_tag_parsing_only (p : TargetingPlugin) (m : NormalModule)
    (t : BabelTarget)
    (helig : p.isTargetedRequest m.request.toStr = .ok true) :
    (getTargetFromTag m.request p.targets = none →
      p.targetModule m = .ok (m, none)) ∧
    (getTargetFromTag m.request p.targets = some t →
      p.targetModule m = .ok ({ m with options := some ⟨some t⟩ }, some t)) := by
  constructor
  · intro hnone
    simp [TargetingPlugin.targetModule, helig, hnone, Except.bind, Except.map, bind,
      Functor.map, pure, Except.pure]
  · intro hsome
    have hk : ∃ k, m.request.tag = some k := by
      cases h : m.request.tag with
      | none => simp [getTargetFromTag, h] at hsome
      | some k => exact ⟨k, rfl⟩
    obtain ⟨k, hk⟩ := hk
    have hnoop : t.getTargetedRequest m.request = m.request := by
      simp [BabelTarget.getTargetedRequest, hk]
    simp [TargetingPlugin.targetModule, helig, hsome, hnoop, Except.bind, Except.map,
      bind, Functor.map, pure, Except.pure]

theorem targetModule_tag_parsing_only_witness :
    pluginW.targetModule moduleUntagged = .ok (moduleUntagged, none) ∧
    pluginW.targetModule moduleTagged =
      .ok ({ moduleTagged with options := some ⟨some legacyTarget⟩ },
        some legacyTarget) := by
  constructor
  · exact (targetModule_tag_parsing_only pluginW moduleUntagged legacyTarget
      (by decide)).1 (by decide)
  · exact (targetModule_tag_parsing_only pluginW moduleTagged legacyTarget
      (by decide)).2 (by decide)

def pluginFnExternals : TargetingPlugin :=
  TargetingPlugin.new [legacyTarget] [] none (some .func)

/-- Counterexample to claim C6: the targeting-engine constructor happily
accepts a function-valued externals declaration - construction succeeds and
the configuration is stored unchanged; the unsupported-externals error only
appears later, when a request is checked for being external. -/
theorem externals_fn_accepted_at_construction_cx :
    pluginFnExternals.externals = some .func ∧
    pluginFnExternals.targets = [legacyTarget] ∧
    pluginFnExternals.isTargetedRequest "./app.js" = .error EXTERNALS_FN_MSG := by
  refine ⟨rfl, rfl, ?_⟩
  rfl

/-- Claim C6 (amended): a function-valued externals declaration is not rejected
at construction (the constructor performs no validation at all); instead, the
first time a request that does not match the do-not-target patterns is checked
for being external, `isTargetedRequest` throws the unsupported-externals
error. -/
theorem externals_fn_rejected_at_request_check (targets : List BabelTarget)
    (exclude : List Pattern) (dnt : Option (List Pattern)) (r : String)
    (hnodnt : ((TargetingPlugin.new targets exclude dnt (some .func)).doNotTarget.any
      (fun pat => pat.test r)) = false) :
    (TargetingPlugin.new targets exclude dnt (some .func)).isTargetedRequest r =
      .error EXTERNALS_FN_MSG := by
  simp only [TargetingPlugin.isTargetedRequest, TargetingPlugin.new,
    isExternalRequest, isExternalRequest.isExternalElem, Except.bind, Except.map,
    bind, Functor.map, pure, Except.pure]
  simp only [TargetingPlugin.new] at hnodnt
  simp [hnodnt]

theorem externals_fn_rejected_at_request_check_witness :
    (TargetingPlugin.new [legacyTarget] [] none (some .func)).isTargetedRequest
      "./app.js" = .error EXTERNALS_FN_MSG :=
  externals_fn_rejected_at_request_check [legacyTarget] [] none "./app.js"
    (by decide)

/-- A `WebpackBabelMultiTargetOptions` object as passed to the orchestrator
constructor (`webpack.babel.multi.target.plugin.js`).  `plugins`, when
provided, matters to the constructor only through whether it is a function,
so it is modelled by that fact. -/
structure MultiTargetOptionsIn where
  browserProfile : Option String
  pluginsIsFunction : Option Bool
  key : Option String
deriving DecidableEq

/-- A target options object after constructor validation: `browserProfile` is
present and `key` has been defaulted. -/
structure ResolvedTargetOptions where
  browserProfile : String
  key : String
deriving DecidableEq


/-- Per-options validation and key defaulting performed inside the
`WebpackBabelMultiTargetPlugin` constructor's forEach (orchestrator source
lines 27-37): `browserProfile` is required (a JS-falsy empty string also
fails), `plugins` must be a function when provided, and a missing or JS-falsy
`key` is defaulted to `browserProfile`. -/
def resolveTargetOptions (o : MultiTargetOptionsIn) :
    Except String ResolvedTargetOptions := do
  match o.browserProfile with
  | none => throw "WebpackBabelMultiTargetOptions.browserProfile is required"
  | some bp =>
    if bp == "" then
      throw "WebpackBabelMultiTargetOptions.browserProfile is required"
    if o.pluginsIsFunction == some false then
      throw "WebpackBabelMultiTargetOptions.plugins must be a function"
    let key := match o.key with
      | none => bp
      | some "" => bp
      | some k => k
    return { browserProfile := bp, key := key }

/-- Sequential validation of the options list, stopping at the first failing
object, as the constructor's forEach does. -/
def resolveAllTargetOptions : List MultiTargetOptionsIn →
    Except String (List ResolvedTargetOptions)
  | [] => .ok []
  | o :: rest => do
    let r ← resolveTargetOptions o
    let rs ← resolveAllTargetOptions rest
    return r :: rs

/-- `WebpackBabelMultiTargetPlugin` constructor (orchestrator source lines
23-39): requires at least one options object, then validates and defaults each
one.  Nothing else is checked - in particular resulting key collisions are
not. -/
def pluginConstructor (opts : List MultiTargetOptionsIn) :
    Except String (List ResolvedTargetOptions) :=
  if opts.isEmpty then
    .error "Must provide at least one WebpackBabelMultiTargetOptions object"
  else
    resolveAllTargetOptions opts

/-- Counterexample to claim C4: two custom target options both classified
`modern`, both with `key` omitted.  Both keys default to `modern`, yet the
constructor succeeds instead of rejecting the configuration - the duplicate
resulting keys are never checked. -/
theorem pluginConstructor_duplicate_keys_accepted_cx :
    pluginConstructor [⟨some "modern", none, none⟩, ⟨some "modern", none, none⟩] =
      .ok [⟨"modern", "modern"⟩, ⟨"modern", "modern"⟩] := by
  decide

theorem resolveTargetOptions_ok (o : MultiTargetOptionsIn) (bp : String)
    (hbp : o.browserProfile = some bp) (hbpne : bp ≠ "")
    (hfn : o.pluginsIsFunction ≠ some false) :
    resolveTargetOptions o =
      .ok ⟨bp, match o.key with | none => bp | some "" => bp | some k => k⟩ := by
  have hbpb : (bp == "") = false := by simpa using hbpne
  have hfnb : (o.pluginsIsFunction == some false) = false := by simpa using hfn
  simp [resolveTargetOptions, hbp, hbpb, hfnb, Except.bind, Except.map, bind,
    Functor.map, pure, Except.pure]

theorem resolveAllTargetOptions_ok (opts : List MultiTargetOptionsIn)
    (hvalid : ∀ o ∈ opts, (∃ bp, o.browserProfile = some bp ∧ bp ≠ "") ∧
      o.pluginsIsFunction ≠ some false) :
    resolveAllTargetOptions opts = .ok (opts.map fun o =>
      { browserProfile := o.browserProfile.getD ""
        key := match o.key with
          | none => o.browserProfile.getD ""
          | some "" => o.browserProfile.getD ""
          | some k => k }) := by
  induction opts with
  | nil => rfl
  | cons o rest ih =>
    obtain ⟨⟨bp, hbp, hbpne⟩, hfn⟩ := hvalid o (List.mem_cons_self o rest)
    have hrest := ih (fun o2 ho2 => hvalid o2 (List.mem_cons_of_mem _ ho2))
    simp only [resolveAllTargetOptions,
      resolveTargetOptions_ok o bp hbp hbpne hfn, hrest, List.map_cons]
    simp [hbp, Except.bind, Except.map, bind, Functor.map, pure, Except.pure]

/-- Claim C4 (amended): at plugin construction, a target options object whose
key is omitted (or JS-falsy) gets its key defaulted to its profile
classification; but a configuration in which two targets thereby end up
sharing the same key is NOT rejected - construction succeeds for any nonempty
list of individually valid options objects, key collisions included. -/
theorem pluginConstructor_defaults_key_no_collision_check
    (opts : List MultiTargetOptionsIn)
    (hne : opts.isEmpty = false)
    (hvalid : ∀ o ∈ opts, (∃ bp, o.browserProfile = some bp ∧ bp ≠ "") ∧
      o.pluginsIsFunction ≠ some false) :
    pluginConstructor opts = .ok (opts.map fun o =>
      { browserProfile := o.browserProfile.getD ""
        key := match o.key with
          | none => o.browserProfile.getD ""
          | some "" => o.browserProfile.getD ""
          | some k => k }) := by
  simp [pluginConstructor, hne, resolveAllTargetOptions_ok opts hvalid]

theorem pluginConstructor_defaults_key_no_collision_check_witness :
    pluginConstructor [⟨some "modern", some true, none⟩, ⟨some "modern", none, some ""⟩] =
      .ok [⟨"modern", "modern"⟩, ⟨"modern", "modern"⟩] := by
  have h := pluginConstructor_defaults_key_no_collision_check
    [⟨some "modern", some true, none⟩, ⟨some "modern", none, some ""⟩]
    (by decide)
    (by
      intro o ho
      rcases List.mem_cons.mp ho with h1 | h1
      · subst h1
        exact ⟨⟨"modern", rfl, by decide⟩, by decide⟩
      · rcases List.mem_cons.mp h1 with h2 | h2
        · subst h2
          exact ⟨⟨"modern", rfl, by decide⟩, by decide⟩
        · simp at h2)
  rw [h]
  decide

/-- A webpack plugin instance, for identity purposes: `id` models JS reference
identity (every live instance gets a distinct id), `ctorName` its
`constructor.name`. -/
structure PluginRef where
  id : Nat
  ctorName : String
deriving DecidableEq

/-- `FILTERED_PLUGINS` (orchestrator source lines 8-15). -/
def FILTERED_PLUGINS : List String := ["HardSourceWebpackPlugin", "HtmlWebpackPlugin"]

/-- The fixed message of the error thrown on plugin instance duplication
(orchestrator source line 79). -/
def DUPLICATE_PLUGIN_MSG : String :=
  "Same plugin instance referenced from both original and child compilations. Use the plugins option to specify a plugin configuration factory and move all plugin instantiations into it."

/-- Child-config plugin filtering (orchestrator source lines 70-74): strips
the orchestrator instance itself, anything constructed by
`WebpackBabelMultiTargetPlugin`, and the fixed incompatible-plugin list. -/
def filterChildPlugins (selfId : Nat) (plugins : List PluginRef) : List PluginRef :=
  plugins.filter fun pl =>
    pl.id != selfId && pl.ctorName != "WebpackBabelMultiTargetPlugin" &&
      !FILTERED_PLUGINS.contains pl.ctorName

/-- The duplication check (orchestrator source lines 76-81): for the first
parent plugin also referenced from the child config, its constructor name is
logged to the console (first component) and the fixed-message error is thrown
(second component). -/
def checkPluginDuplication (parentPlugins configPlugins : List PluginRef) :
    Option String × Except String Unit :=
  match parentPlugins.find? (fun pl => configPlugins.contains pl) with
  | some pl => (some pl.ctorName, .error DUPLICATE_PLUGIN_MSG)
  | none => (none, .ok ())

/-- Whether `pat` occurs as a contiguous sublist of `s`. -/
def containsSub : List Char → List Char → Bool
  | [], pat => pat.isEmpty
  | c :: rest, pat => pat.isPrefixOf (c :: rest) || containsSub rest pat

/-- Whether string `pat` occurs as a substring of `s` (kernel-reducible). -/
def strContainsSub (s pat : String) : Bool := containsSub s.data pat.data

/-- Counterexample to claim C5: a plugin instance named
`MyCompressionPlugin` shared between parent and child configuration makes the
orchestrator throw, but the error message is the fixed generic string and
does not contain the plugin's name anywhere: the name is only written to the
console log. -/
theorem duplicate_plugin_error_message_generic_cx :
    (checkPluginDuplication [⟨7, "MyCompressionPlugin"⟩]
        [⟨7, "MyCompressionPlugin"⟩]).2 = .error DUPLICATE_PLUGIN_MSG ∧
    strContainsSub DUPLICATE_PLUGIN_MSG "MyCompressionPlugin" = false ∧
    (checkPluginDuplication [⟨7, "MyCompressionPlugin"⟩]
        [⟨7, "MyCompressionPlugin"⟩]).1 = some "MyCompressionPlugin" := by
  set_option maxRecDepth 4000 in decide

/-- Claim C5 (amended): a plugin instance shared between the parent
configuration and a cloned child configuration makes the orchestrator fail
fast by throwing - but the thrown error carries a fixed generic message that
does not identify the offending plugin; the offending plugin's constructor
name is instead logged to the console. -/
theorem checkPluginDuplication_throws_fixed_message
    (parent config : List PluginRef) (pl : PluginRef)
    (hp : pl ∈ parent) (hc : config.contains pl = true) :
    (checkPluginDuplication parent config).2 = .error DUPLICATE_PLUGIN_MSG ∧
    ∃ pl2, pl2 ∈ parent ∧ config.contains pl2 = true ∧
      (checkPluginDuplication parent config).1 = some pl2.ctorName := by
  have hex : (parent.find? (fun x => config.contains x)).isSome := by
    rw [List.find?_isSome]
    exact ⟨pl, hp, hc⟩
  obtain ⟨q, hq⟩ := Option.isSome_iff_exists.mp hex
  have hqmem := List.mem_of_find?_eq_some hq
  have hqpred := List.find?_some hq
  constructor
  · unfold checkPluginDuplication
    rw [hq]
  · refine ⟨q, hqmem, hqpred, ?_⟩
    unfold checkPluginDuplication
    rw [hq]

theorem checkPluginDuplication_throws_fixed_message_witness :
    (checkPluginDuplication [⟨1, "DefinePlugin"⟩, ⟨2, "TerserPlugin"⟩]
        [⟨2, "TerserPlugin"⟩]).2 = .error DUPLICATE_PLUGIN_MSG ∧
    ∃ pl2, pl2 ∈ [(⟨1, "DefinePlugin"⟩ : PluginRef), ⟨2, "TerserPlugin"⟩] ∧
      [(⟨2, "TerserPlugin"⟩ : PluginRef)].contains pl2 = true ∧
      (checkPluginDuplication [⟨1, "DefinePlugin"⟩, ⟨2, "TerserPlugin"⟩]
          [⟨2, "TerserPlugin"⟩]).1 = some pl2.ctorName :=
  checkPluginDuplication_throws_fixed_message
    [⟨1, "DefinePlugin"⟩, ⟨2, "TerserPlugin"⟩] [⟨2, "TerserPlugin"⟩]
    ⟨2, "TerserPlugin"⟩ (by decide) (by decide)

/-- The `browser` field of a package manifest: a string, an array of entry
paths, or a mapping (of which only the values matter to the source). -/
inductive BrowserField where
  | str (s : String)
  | arr (entries : List String)
  | obj (values : List String)
deriving DecidableEq

/-- `Object.values` of a JS value as the source applies it to the browser
field (its `typeof(pkg.browser === 'object')` guard is always truthy, so this
runs for every shape): characters of a string, elements of an array, values
of an object. -/
def browserValues : BrowserField → List String
  | .str s => s.data.map (fun c => String.mk [c])
  | .arr entries => entries
  | .obj values => values

/-- JS truthiness of the browser field (`if (pkg.browser)`). -/
def browserTruthy : BrowserField → Bool
  | .str s => s != ""
  | .arr _ => true
  | .obj _ => true

/-- `path.resolve(root, entry)`, modelled for the external path library as
plain slash concatenation. -/
def pathResolve (root entry : String) : String := root ++ "/" ++ entry

/-- The parts of the webpack afterResolve data object that
`isTranspiledRequest` reads: the resolved file `resource`, the (nonexistent
at this hook, hence optional) `resolve` property that the caller-supplied
exclusion check reads, and the package metadata from `resourceResolveData`
(`descriptionFileRoot`, the manifest's `main` and `browser` fields). -/
structure ResolveData where
  resource : String
  resolve : Option String
  descriptionFileRoot : String
  pkgMain : Option String
  pkgBrowser : Option BrowserField

/-- `TargetingPlugin.isTranspiledRequest` (source lines 308-357),
parameterized over the `STANDARD_EXCLUDED` and `KNOWN_EXCLUDED` pattern
constants, which live in a file that is not part of the sources.  Note the
caller-supplied `exclude` patterns are tested against the `resolve` property
(stringified to "undefined" when absent, as JS `RegExp.test` does), exactly
as the source does - not against `resource`.  A `find` used as a JS truthy
condition yields the found element, so an empty-string match does not count
as found. -/
def isTranspiledRequest (stdExcluded knownExcluded : List Pattern)
    (exclude : List Pattern) (rc : ResolveData) : Bool :=
  if stdExcluded.any (fun pat => pat.test rc.resource) then false
  else if knownExcluded.any (fun pat => pat.test rc.resource) then false
  else if exclude.any (fun pat => pat.test (rc.resolve.getD "undefined")) then false
  else if (match rc.pkgMain with
    | some m => m != "" && rc.resource == pathResolve rc.descriptionFileRoot m
    | none => false) then false
  else match rc.pkgBrowser with
    | none => true
    | some bf =>
      if !browserTruthy bf then true
      else if (match bf with
        | .str s => rc.resource == pathResolve rc.descriptionFileRoot s
        | _ => false) then false
      else if (match bf with
        | .arr entries =>
          (match entries.find? (fun e =>
              rc.resource == pathResolve rc.descriptionFileRoot e) with
            | some e => e != ""
            | none => false)
        | _ => false) then false
      else if (match (browserValues bf).find? (fun e =>
          rc.resource == pathResolve rc.descriptionFileRoot e) with
        | some e => e != ""
        | none => false) then false
      else true

def fooExcludePattern : Pattern :=
  ⟨fun s => strStartsWith s "/proj/node_modules/foo"⟩

def fooResolveData : ResolveData :=
  { resource := "/proj/node_modules/foo/index.js"
    resolve := none
    descriptionFileRoot := "/proj/node_modules/foo"
    pkgMain := none
    pkgBrowser := none }

/-- Claim C7 fails on the code (code bug): the resolved file
`/proj/node_modules/foo/index.js` matches the caller-supplied exclusion
pattern, yet `isTranspiledRequest` returns true (eligible), because the
source tests the exclusion patterns against the nonexistent
`resolveContext.resolve` property instead of `resolveContext.resource`.  The
same pattern placed in the standard or known-excluded sets (which are tested
against `resource`) does reject the file. -/
theorem exclude_pattern_tested_against_wrong_field :
    fooExcludePattern.test fooResolveData.resource = true ∧
    isTranspiledRequest [] [] [fooExcludePattern] fooResolveData = true ∧
    isTranspiledRequest [fooExcludePattern] [] [] fooResolveData = false ∧
    isTranspiledRequest [] [fooExcludePattern] [] fooResolveData = false := by
  decide

/-- `CHILD_COMPILER_PREFIX` from the orchestrator source (line 5): the
reserved child compilation name head. -/
def CHILD_COMPILER_MARK : String := "webpack-babel-multi-target-compiler-"

/-- A child compilation as seen by the script-tag handler: its name and the
names of its emitted assets. -/
structure ChildComp where
  name : String
  assets : List String
deriving DecidableEq

/-- A html-webpack-plugin asset tag: tag name, source attribute, and the two
attributes the handler writes. -/
structure ScriptTag where
  tagName : String
  src : String
  typeAttr : Option String
  nomodule : Bool
deriving DecidableEq

/-- JS-object-style lookup in a string-keyed association list. -/
def lookupAssoc (l : List (String × String)) (k : String) : Option String :=
  (l.find? (fun e => e.1 == k)).map (fun e => e.2)

/-- The `compilationBrowserProfiles` map built in `apply` (orchestrator source
lines 91-92): child compiler name (reserved head ++ target key) to that
target's browserProfile. -/
def compilationBrowserProfiles (opts : List ResolvedTargetOptions) :
    List (String × String) :=
  opts.map (fun o => (CHILD_COMPILER_MARK ++ o.key, o.browserProfile))

/-- Body of the `html-webpack-plugin-alter-asset-tags` handler for one script
tag (orchestrator source lines 154-182): find the first child compilation
(restricted to those bearing the reserved name head) owning an asset named
like the tag's src; a found child is modern iff its recorded browserProfile
is `modern`; an unmatched tag is modern iff some configured target has
browserProfile `legacy`; modern sets `type=module`, otherwise `nomodule` is
set. -/
def alterScriptTag (profiles : List (String × String))
    (opts : List ResolvedTargetOptions) (children : List ChildComp)
    (tag : ScriptTag) : ScriptTag :=
  let cs := children.filter (fun c => strStartsWith c.name CHILD_COMPILER_MARK)
  let isModernBundle := match cs.find? (fun c => c.assets.contains tag.src) with
    | some child => lookupAssoc profiles child.name == some "modern"
    | none => opts.any (fun o => o.browserProfile == "legacy")
  if isModernBundle then { tag with typeAttr := some "module" }
  else { tag with nomodule := true }

/-- The full handler: mutates every script tag of head ++ body, leaving other
tags alone. -/
def alterAssetTags (profiles : List (String × String))
    (opts : List ResolvedTargetOptions) (children : List ChildComp)
    (tags : List ScriptTag) : List ScriptTag :=
  tags.map (fun tag =>
    if tag.tagName == "script" then alterScriptTag profiles opts children tag
    else tag)

theorem find_eq_some_of_unique {α : Type} (l : List α) (p : α → Bool) (a : α)
    (ha : a ∈ l) (hpa : p a = true)
    (huniq : ∀ b ∈ l, p b = true → b = a) : l.find? p = some a := by
  induction l with
  | nil => simp at ha
  | cons x rest ih =>
    by_cases hx : p x = true
    · have hxa : x = a := huniq x (List.mem_cons_self x rest) hx
      subst hxa
      simp [List.find?_cons, hx]
    · have hxb : p x = false := by simpa using hx
      have har : a ∈ rest := by
        rcases List.mem_cons.mp ha with h1 | h1
        · subst h1; rw [hpa] at hxb; cases hxb
        · exact h1
      rw [List.find?_cons, hxb]
      exact ih har (fun b hb hpb => huniq b (List.mem_cons_of_mem x hb) hpb)

/-- Claim C8: in the script-tag rewriting step, a script tag whose src matches
an asset of a child compilation recorded with profile `modern` gets
`type=module`; one matching a child with any other recorded profile gets
`nomodule`; and one matching no child gets `type=module` iff at least one
configured target has profile `legacy`, else `nomodule`.  (The disjointness
hypothesis says the tag's src belongs to at most one child, which holds for
real child outputs since every child suffixes its assets with its own key.) -/
theorem alterScriptTag_module_hints (profiles : List (String × String))
    (opts : List ResolvedTargetOptions) (children : List ChildComp)
    (tag : ScriptTag) (c : ChildComp) (prof : String)
    (hdisj : ∀ c1 ∈ children, ∀ c2 ∈ children,
      c1 ≠ c2 → ¬(tag.src ∈ c1.assets ∧ tag.src ∈ c2.assets)) :
    (c ∈ children → strStartsWith c.name CHILD_COMPILER_MARK = true →
      tag.src ∈ c.assets → lookupAssoc profiles c.name = some "modern" →
      alterScriptTag profiles opts children tag =
        { tag with typeAttr := some "module" }) ∧
    (c ∈ children → strStartsWith c.name CHILD_COMPILER_MARK = true →
      tag.src ∈ c.assets → lookupAssoc profiles c.name = some prof →
      prof ≠ "modern" →
      alterScriptTag profiles opts children tag =
        { tag with nomodule := true }) ∧
    ((∀ c2 ∈ children, strStartsWith c2.name CHILD_COMPILER_MARK = true →
        tag.src ∉ c2.assets) →
      alterScriptTag profiles opts children tag =
        (if opts.any (fun o => o.browserProfile == "legacy") then
          { tag with typeAttr := some "module" }
        else { tag with nomodule := true })) := by
  refine ⟨?_, ?_, ?_⟩
  · intro hmem hpre hasset hprof
    have hfind : (children.filter
        (fun c2 => strStartsWith c2.name CHILD_COMPILER_MARK)).find?
          (fun c2 => c2.assets.contains tag.src) = some c := by
      refine find_eq_some_of_unique _ _ c ?_ ?_ ?_
      · exact List.mem_filter.mpr ⟨hmem, hpre⟩
      · simpa using hasset
      · intro b hb hpb
        have hbmem := (List.mem_filter.mp hb).1
        by_contra hne
        exact hdisj b hbmem c hmem hne ⟨by simpa using hpb, hasset⟩
    simp only [alterScriptTag]
    rw [hfind]
    simp [hprof]
  · intro hmem hpre hasset hprof hne
    have hfind : (children.filter
        (fun c2 => strStartsWith c2.name CHILD_COMPILER_MARK)).find?
          (fun c2 => c2.assets.contains tag.src) = some c := by
      refine find_eq_some_of_unique _ _ c ?_ ?_ ?_
      · exact List.mem_filter.mpr ⟨hmem, hpre⟩
      · simpa using hasset
      · intro b hb hpb
        have hbmem := (List.mem_filter.mp hb).1
        by_contra hbne
        exact hdisj b hbmem c hmem hbne ⟨by simpa using hpb, hasset⟩
    have hprofb : (lookupAssoc profiles c.name == some "modern") = false := by
      rw [hprof]
      simpa using hne
    simp only [alterScriptTag]
    rw [hfind]
    simp [hprofb]
  · intro hnone
    have hfind : (children.filter
        (fun c2 => strStartsWith c2.name CHILD_COMPILER_MARK)).find?
          (fun c2 => c2.assets.contains tag.src) = none := by
      rw [List.find?_eq_none]
      intro b hb
      have hbmem := (List.mem_filter.mp hb).1
      have hbpre := (List.mem_filter.mp hb).2
      simpa using hnone b hbmem hbpre
    simp only [alterScriptTag]
    rw [hfind]

def optsW : List ResolvedTargetOptions := [⟨"legacy", "legacy"⟩, ⟨"modern", "modern"⟩]

def profilesW : List (String × String) := compilationBrowserProfiles optsW

def modernChild : ChildComp := ⟨CHILD_COMPILER_MARK ++ "modern", ["main.modern.js"]⟩

def legacyChild : ChildComp := ⟨CHILD_COMPILER_MARK ++ "legacy", ["main.legacy.js"]⟩

def childrenW : List ChildComp := [legacyChild, modernChild]

def tagModern : ScriptTag := ⟨"script", "main.modern.js", none, false⟩

def tagLegacy : ScriptTag := ⟨"script", "main.legacy.js", none, false⟩

def tagParent : ScriptTag := ⟨"script", "main.js", none, false⟩

theorem alterScriptTag_module_hints_witness :
    alterScriptTag profilesW optsW childrenW tagModern =
      { tagModern with typeAttr := some "module" } ∧
    alterScriptTag profilesW optsW childrenW tagLegacy =
      { tagLegacy with nomodule := true } ∧
    alterScriptTag profilesW optsW childrenW tagParent =
      (if optsW.any (fun o => o.browserProfile == "legacy") then
        { tagParent with typeAttr := some "module" }
      else { tagParent with nomodule := true }) := by
  refine ⟨?_, ?_, ?_⟩
  · exact (alterScriptTag_module_hints profilesW optsW childrenW tagModern
      modernChild "modern" (by decide)).1 (by decide) (by decide) (by decide)
      (by decide)
  · exact (alterScriptTag_module_hints profilesW optsW childrenW tagLegacy
      legacyChild "legacy" (by decide)).2.1 (by decide) (by decide) (by decide)
      (by decide) (by decide)
  · exact (alterScriptTag_module_hints profilesW optsW childrenW tagParent
      modernChild "legacy" (by decide)).2.2 (by decide)

/-- A loader chain entry as `replaceLoaders` sees it.  `id` models JS object
identity (distinct live objects have distinct ids), `isMarker` models the
`options.isBabelMultiTargetLoader` flag that afterResolve filters on (source
lines 194-195), `opts` holds `options.loaderOptions` for marker entries and
the plain options value otherwise, `ident` the optional loader ident. -/
structure ChainEntry where
  id : Nat
  loader : String
  isMarker : Bool
  opts : String
  ident : Option String
deriving DecidableEq

/-- The `babelLoaders` cache (source line 58): target key to the shared
per-target loader object. -/
def BabelLoaderCache : Type := List (String × ChainEntry)

def cacheLookup (st : BabelLoaderCache) (k : String) : Option ChainEntry :=
  (st.find? (fun e => e.1 == k)).map (fun e => e.2)

/-- `TargetingPlugin.getTargetedBabelLoader` (source lines 383-391): on a
cache miss for the target's key, build the per-target variant (the passed
effective loader with `loader` re-pointed at the babel-loader path and
options replaced by the target's options), store and return it; on a hit,
return the cached object untouched. -/
def targetedLoaderOf (blp : String) (l : ChainEntry) (t : BabelTarget) : ChainEntry :=
  { l with loader := blp, opts := t.options }

def getTargetedBabelLoader (blp : String) (st : BabelLoaderCache)
    (l : ChainEntry) (t : BabelTarget) : ChainEntry × BabelLoaderCache :=
  match cacheLookup st t.key with
  | some e => (e, st)
  | none => (targetedLoaderOf blp l t, (t.key, targetedLoaderOf blp l t) :: st)

/-- `Array.prototype.indexOf` by object identity, as position lookup. -/
def findIdxById : List ChainEntry → Nat → Option Nat
  | [], _ => none
  | e :: rest, mid =>
    if e.id == mid then some 0
    else (findIdxById rest mid).map (fun i => i + 1)

/-- `splice(i, 1)`. -/
def spliceRemove : List ChainEntry → Nat → List ChainEntry
  | [], _ => []
  | _ :: rest, 0 => rest
  | e :: rest, n + 1 => e :: spliceRemove rest n

/-- `splice(i, 1, x)`. -/
def spliceSet : List ChainEntry → Nat → ChainEntry → List ChainEntry
  | [], _, _ => []
  | _ :: rest, 0, x => x :: rest
  | e :: rest, n + 1, x => e :: spliceSet rest n x

/-- The `effectiveLoader` object built for a marker entry (source lines
253-257): same loader path, options unwrapped to `loaderOptions`, same ident
(the marker flag is gone). -/
def effectiveLoader (m : ChainEntry) : ChainEntry := { m with isMarker := false }

/-- One iteration of the forEach in `replaceLoaders` (source lines 245-263):
locate the marker entry in the current chain; with no determined target,
splice it out; with a target, splice in either the shared targeted babel
loader (when the marker's loader is the resolved babel-loader path) or the
plain effective loader. -/
def replaceLoadersStep (blp : String) (t? : Option BabelTarget)
    (acc : List ChainEntry × BabelLoaderCache) (m : ChainEntry) :
    List ChainEntry × BabelLoaderCache :=
  match findIdxById acc.1 m.id with
  | none => acc
  | some i =>
    match t? with
    | none => (spliceRemove acc.1 i, acc.2)
    | some t =>
      if m.loader == blp then
        let r := getTargetedBabelLoader blp acc.2 (effectiveLoader m) t
        (spliceSet acc.1 i r.1, r.2)
      else (spliceSet acc.1 i (effectiveLoader m), acc.2)

/-- `TargetingPlugin.replaceLoaders` (source lines 239-265), with the
determined target (the chain at source lines 241-243) passed in as `t?` and
the cache threaded explicitly. -/
def replaceLoaders (blp : String) (t? : Option BabelTarget)
    (chain : List ChainEntry) (markers : List ChainEntry)
    (st : BabelLoaderCache) : List ChainEntry × BabelLoaderCache :=
  markers.foldl (replaceLoadersStep blp t?) (chain, st)

/-- The marker entries of a chain, as `afterResolve` filters them (source
lines 194-195). -/
def markersOf (chain : List ChainEntry) : List ChainEntry :=
  chain.filter (fun e => e.isMarker)

/-- Transparent elementwise characterization of targeted loader replacement:
walk the chain once, keeping non-marker entries, and replacing each marker by
the targeted babel loader (when its loader is the babel-loader path) or its
effective form. -/
def processChain (blp : String) (t : BabelTarget) :
    BabelLoaderCache → List ChainEntry → List ChainEntry × BabelLoaderCache
  | st, [] => ([], st)
  | st, e :: rest =>
    if e.isMarker then
      let r := if e.loader == blp then
          getTargetedBabelLoader blp st (effectiveLoader e) t
        else (effectiveLoader e, st)
      let rest2 := processChain blp t r.2 rest
      (r.1 :: rest2.1, rest2.2)
    else
      let rest2 := processChain blp t st rest
      (e :: rest2.1, rest2.2)

theorem cacheLookup_cons (k k2 : String) (e : ChainEntry) (st : BabelLoaderCache) :
    cacheLookup ((k, e) :: st) k2 =
      if (k == k2) = true then some e else cacheLookup st k2 := by
  by_cases hk : (k == k2) = true
  · simp [cacheLookup, List.find?_cons, hk]
  · have hk2 : (k == k2) = false := by simpa using hk
    simp [cacheLookup, List.find?_cons, hk2]

theorem replaceLoadersStep_head_skip (blp : String) (t? : Option BabelTarget)
    (x m : ChainEntry) (xs : List ChainEntry) (st : BabelLoaderCache)
    (hmx : (x.id == m.id) = false) :
    replaceLoadersStep blp t? (x :: xs, st) m =
      (x :: (replaceLoadersStep blp t? (xs, st) m).1,
       (replaceLoadersStep blp t? (xs, st) m).2) := by
  unfold replaceLoadersStep
  simp only [findIdxById, hmx, if_false, Bool.false_eq_true]
  cases hf : findIdxById xs m.id with
  | none => simp [hf]
  | some i =>
    cases t? with
    | none => simp [hf, spliceRemove]
    | some t =>
      by_cases hl : (m.loader == blp) = true
      · simp [hf, hl, spliceSet]
      · have hl2 : (m.loader == blp) = false := by simpa using hl
        simp [hf, hl2, spliceSet]

theorem replaceLoaders_head_skip (blp : String) (t? : Option BabelTarget)
    (x : ChainEntry) (ms : List ChainEntry) :
    ∀ (xs : List ChainEntry) (st : BabelLoaderCache),
    (∀ m ∈ ms, m.id ≠ x.id) →
    List.foldl (replaceLoadersStep blp t?) (x :: xs, st) ms =
      (x :: (List.foldl (replaceLoadersStep blp t?) (xs, st) ms).1,
       (List.foldl (replaceLoadersStep blp t?) (xs, st) ms).2) := by
  induction ms with
  | nil =>
    intro xs st _
    rfl
  | cons m ms ih =>
    intro xs st h
    have hmx : (x.id == m.id) = false := by
      have hne := h m (List.mem_cons_self m ms)
      simp only [beq_eq_false_iff_ne]
      exact fun hh => hne hh.symm
    have hstep := replaceLoadersStep_head_skip blp t? x m xs st hmx
    rw [List.foldl_cons, List.foldl_cons, hstep]
    have := ih (replaceLoadersStep blp t? (xs, st) m).1
      (replaceLoadersStep blp t? (xs, st) m).2
      (fun m2 hm2 => h m2 (List.mem_cons_of_mem m hm2))
    simpa using this

theorem replaceLoaders_none_eq_filter (blp : String) :
    ∀ (chain : List ChainEntry) (st : BabelLoaderCache),
    (chain.map (fun e => e.id)).Nodup →
    replaceLoaders blp none chain (markersOf chain) st =
      (chain.filter (fun e => !e.isMarker), st) := by
  intro chain
  induction chain with
  | nil =>
    intro st _
    rfl
  | cons x xs ih =>
    intro st h
    have hnd : (xs.map (fun e => e.id)).Nodup :=
      (List.nodup_cons.mp (by simpa using h)).2
    have hxid : x.id ∉ xs.map (fun e => e.id) :=
      (List.nodup_cons.mp (by simpa using h)).1
    have hids : ∀ m ∈ markersOf xs, m.id ≠ x.id := by
      intro m hm2 heq
      exact hxid (by
        rw [← heq]
        exact List.mem_map_of_mem (fun e => e.id) (List.mem_of_mem_filter hm2))
    by_cases hm : x.isMarker = true
    · have hmk : markersOf (x :: xs) = x :: markersOf xs := by
        simp [markersOf, List.filter_cons, hm]
      rw [replaceLoaders, hmk, List.foldl_cons]
      have hstep : replaceLoadersStep blp none (x :: xs, st) x = (xs, st) := by
        unfold replaceLoadersStep
        simp [findIdxById, spliceRemove]
      rw [hstep]
      have := ih st hnd
      rw [replaceLoaders] at this
      rw [this]
      simp [List.filter_cons, hm]
    · have hmb : x.isMarker = false := by simpa using hm
      have hmk : markersOf (x :: xs) = markersOf xs := by
        simp [markersOf, List.filter_cons, hmb]
      rw [replaceLoaders, hmk]
      rw [replaceLoaders_head_skip blp none x (markersOf xs) xs st hids]
      have := ih st hnd
      rw [replaceLoaders] at this
      rw [this]
      simp [List.filter_cons, hmb]

theorem replaceLoaders_some_eq_process (blp : String) (t : BabelTarget) :
    ∀ (chain : List ChainEntry) (st : BabelLoaderCache),
    (chain.map (fun e => e.id)).Nodup →
    (∀ k e, cacheLookup st k = some e → e.id ∉ chain.map (fun z => z.id)) →
    replaceLoaders blp (some t) chain (markersOf chain) st =
      processChain blp t st chain := by
  intro chain
  induction chain with
  | nil =>
    intro st _ _
    rfl
  | cons x xs ih =>
    intro st h hcache
    have hnd : (xs.map (fun e => e.id)).Nodup :=
      (List.nodup_cons.mp (by simpa using h)).2
    have hxid : x.id ∉ xs.map (fun e => e.id) :=
      (List.nodup_cons.mp (by simpa using h)).1
    have hids : ∀ m ∈ markersOf xs, m.id ≠ x.id := by
      intro m hm2 heq
      exact hxid (by
        rw [← heq]
        exact List.mem_map_of_mem (fun e => e.id) (List.mem_of_mem_filter hm2))
    have hcr : ∀ k e, cacheLookup st k = some e →
        e.id ∉ xs.map (fun z => z.id) := by
      intro k e hk hmem
      exact hcache k e hk (List.mem_cons_of_mem _ hmem)
    by_cases hm : x.isMarker = true
    · have hmk : markersOf (x :: xs) = x :: markersOf xs := by
        simp [markersOf, List.filter_cons, hm]
      rw [replaceLoaders, hmk, List.foldl_cons]
      by_cases hl : (x.loader == blp) = true
      · cases hc : cacheLookup st t.key with
        | some e =>
          have hr : getTargetedBabelLoader blp st (effectiveLoader x) t =
              (e, st) := by
            simp [getTargetedBabelLoader, hc]
          have hstep : replaceLoadersStep blp (some t) (x :: xs, st) x =
              (e :: xs, st) := by
            unfold replaceLoadersStep
            simp [findIdxById, hl, spliceSet, hr]
          rw [hstep]
          have heid : ∀ m ∈ markersOf xs, m.id ≠ e.id := by
            intro m hm2 heq
            exact hcache t.key e hc (by
              rw [← heq]
              exact List.mem_cons_of_mem _
                (List.mem_map_of_mem (fun z => z.id) (List.mem_of_mem_filter hm2)))
          rw [replaceLoaders_head_skip blp (some t) e (markersOf xs) xs st heid]
          have hxs := ih st hnd hcr
          rw [replaceLoaders] at hxs
          rw [hxs]
          simp [processChain, hm, hl, hr]
        | none =>
          have hr : getTargetedBabelLoader blp st (effectiveLoader x) t =
              (targetedLoaderOf blp (effectiveLoader x) t,
               (t.key, targetedLoaderOf blp (effectiveLoader x) t) :: st) := by
            simp [getTargetedBabelLoader, hc]
          have hstep : replaceLoadersStep blp (some t) (x :: xs, st) x =
              (targetedLoaderOf blp (effectiveLoader x) t :: xs,
               (t.key, targetedLoaderOf blp (effectiveLoader x) t) :: st) := by
            unfold replaceLoadersStep
            simp [findIdxById, hl, spliceSet, hr]
          rw [hstep]
          have heid : ∀ m ∈ markersOf xs,
              m.id ≠ (targetedLoaderOf blp (effectiveLoader x) t).id := by
            intro m hm2 heq
            exact hids m hm2
              (by simpa [targetedLoaderOf, effectiveLoader] using heq)
          rw [replaceLoaders_head_skip blp (some t)
            (targetedLoaderOf blp (effectiveLoader x) t) (markersOf xs) xs
            ((t.key, targetedLoaderOf blp (effectiveLoader x) t) :: st) heid]
          have hcache2 : ∀ k e,
              cacheLookup
                ((t.key, targetedLoaderOf blp (effectiveLoader x) t) :: st) k =
                some e →
              e.id ∉ xs.map (fun z => z.id) := by
            intro k e hk
            rw [cacheLookup_cons] at hk
            by_cases hkk : (t.key == k) = true
            · rw [if_pos hkk] at hk
              have he : targetedLoaderOf blp (effectiveLoader x) t = e :=
                Option.some.inj hk
              rw [← he]
              exact hxid
            · have hkk2 : (t.key == k) = false := by simpa using hkk
              rw [hkk2] at hk
              simp only [Bool.false_eq_true, if_false] at hk
              exact hcr k e hk
          have hxs := ih
            ((t.key, targetedLoaderOf blp (effectiveLoader x) t) :: st)
            hnd hcache2
          rw [replaceLoaders] at hxs
          rw [hxs]
          simp [processChain, hm, hl, hr]
      · have hl2 : (x.loader == blp) = false := by simpa using hl
        have hstep : replaceLoadersStep blp (some t) (x :: xs, st) x =
            (effectiveLoader x :: xs, st) := by
          unfold replaceLoadersStep
          simp [findIdxById, hl2, spliceSet]
        rw [hstep]
        have heid : ∀ m ∈ markersOf xs, m.id ≠ (effectiveLoader x).id := by
          intro m hm2 heq
          exact hids m hm2 (by simpa [effectiveLoader] using heq)
        rw [replaceLoaders_head_skip blp (some t) (effectiveLoader x)
          (markersOf xs) xs st heid]
        have hxs := ih st hnd hcr
        rw [replaceLoaders] at hxs
        rw [hxs]
        simp [processChain, hm, hl2]
    · have hmb : x.isMarker = false := by simpa using hm
      have hmk : markersOf (x :: xs) = markersOf xs := by
        simp [markersOf, List.filter_cons, hmb]
      rw [replaceLoaders, hmk]
      rw [replaceLoaders_head_skip blp (some t) x (markersOf xs) xs st hids]
      have hxs := ih st hnd hcr
      rw [replaceLoaders] at hxs
      rw [hxs]
      simp [processChain, hmb]

/-- Claim C9: in loader-chain rewriting, for every chain entry flagged as the
multi-target marker: with no determined target the entry is removed from the
chain (first conjunct: the resulting chain is exactly the non-marker
entries); with a determined target the chain is rewritten elementwise
(second conjunct: each babel-loader marker becomes the shared per-target
babel loader, any other marker becomes its declared effective non-marker
form, as `processChain` spells out); a cache miss creates the per-target
variant carrying the target's transform options (third conjunct); and a
second request for the same target key returns the identical shared
replacement object without touching the cache, whatever loader it is given
(fourth conjunct).  The id-nodup and cache hypotheses model JS reference
identity: distinct live loader objects are distinct, and cached replacement
objects are never reference-equal to a chain's marker objects. -/
theorem replaceLoaders_marker_handling (blp : String) (chain : List ChainEntry)
    (st : BabelLoaderCache) (t : BabelTarget) (l1 l2 : ChainEntry)
    (hnodup : (chain.map (fun e => e.id)).Nodup)
    (hcache : ∀ k e, cacheLookup st k = some e →
      e.id ∉ chain.map (fun z => z.id)) :
    replaceLoaders blp none chain (markersOf chain) st =
      (chain.filter (fun e => !e.isMarker), st) ∧
    replaceLoaders blp (some t) chain (markersOf chain) st =
      processChain blp t st chain ∧
    (cacheLookup st t.key = none →
      getTargetedBabelLoader blp st l1 t =
        (targetedLoaderOf blp l1 t,
         (t.key, targetedLoaderOf blp l1 t) :: st)) ∧
    getTargetedBabelLoader blp (getTargetedBabelLoader blp st l1 t).2 l2 t =
      ((getTargetedBabelLoader blp st l1 t).1,
       (getTargetedBabelLoader blp st l1 t).2) := by
  refine ⟨replaceLoaders_none_eq_filter blp chain st hnodup,
    replaceLoaders_some_eq_process blp t chain st hnodup hcache, ?_, ?_⟩
  · intro hc
    simp [getTargetedBabelLoader, hc]
  · cases hc : cacheLookup st t.key with
    | some e => simp [getTargetedBabelLoader, hc]
    | none =>
      have h2 : cacheLookup ((t.key, targetedLoaderOf blp l1 t) :: st) t.key =
          some (targetedLoaderOf blp l1 t) := by
        rw [cacheLookup_cons]
        simp
      simp [getTargetedBabelLoader, hc, h2]

def chainW : List ChainEntry :=
  [⟨1, BABEL_LOADER_PATH, true, "marker-babel-options", some "babel"⟩,
   ⟨2, "node_modules/ts-loader/index.js", false, "ts-options", none⟩,
   ⟨3, "node_modules/other-loader/index.js", true, "other-options", none⟩]

def loaderW1 : ChainEntry := ⟨10, BABEL_LOADER_PATH, false, "opts1", some "a"⟩

def loaderW2 : ChainEntry := ⟨11, BABEL_LOADER_PATH, false, "opts2", some "b"⟩

theorem replaceLoaders_marker_handling_witness :
    replaceLoaders BABEL_LOADER_PATH none chainW (markersOf chainW) [] =
      (chainW.filter (fun e => !e.isMarker), []) ∧
    replaceLoaders BABEL_LOADER_PATH (some modernTarget) chainW
        (markersOf chainW) [] =
      processChain BABEL_LOADER_PATH modernTarget [] chainW ∧
    getTargetedBabelLoader BABEL_LOADER_PATH [] loaderW1 modernTarget =
      (targetedLoaderOf BABEL_LOADER_PATH loaderW1 modernTarget,
       (modernTarget.key,
        targetedLoaderOf BABEL_LOADER_PATH loaderW1 modernTarget) :: []) ∧
    getTargetedBabelLoader BABEL_LOADER_PATH
        (getTargetedBabelLoader BABEL_LOADER_PATH [] loaderW1 modernTarget).2
        loaderW2 modernTarget =
      ((getTargetedBabelLoader BABEL_LOADER_PATH [] loaderW1 modernTarget).1,
       (getTargetedBabelLoader BABEL_LOADER_PATH [] loaderW1 modernTarget).2) := by
  have h := replaceLoaders_marker_handling BABEL_LOADER_PATH chainW []
    modernTarget loaderW1 loaderW2 (by decide)
    (by intro k e hk; simp [cacheLookup, List.find?] at hk)
  exact ⟨h.1, h.2.1, h.2.2.1 (by decide), h.2.2.2⟩

/-- `DEV_SERVER_CLIENT` from the `./constants` module, which is not among the
source files: the request head identifying webpack-dev-server's client entry;
modelled by its value in the containing package. -/
def DEV_SERVER_CLIENT : String := "webpack-dev-server/client"

/-- `BabelTargetSingleEntryDependency` (source lines 7-31): the fields the
constructor sets.  `request` is the field the `ModuleDependency` base class
stores from the constructor's `super(...)` argument. -/
structure BabelTargetSingleEntryDependency where
  babelTarget : BabelTarget
  originalName : String
  request : Request
  name : String
  loc : String
deriving DecidableEq

/-- The `BabelTargetSingleEntryDependency` constructor (source lines 20-30):
requests beginning with the dev-server client head are passed to the base
class untouched, all others are first tagged for the target; the entry name
is the target-suffixed asset name; `loc` is either the stored request or the
provided loc, with a colon and the target key appended. -/
def BabelTargetSingleEntryDependency.make (babelTarget : BabelTarget)
    (request : Request) (originalName : String) (loc : Option String) :
    BabelTargetSingleEntryDependency :=
  let req := if strStartsWith request.toStr DEV_SERVER_CLIENT then request
    else babelTarget.getTargetedRequest request
  let name := babelTarget.getTargetedAssetName originalName
  let loc2 := match loc with
    | none => req.toStr ++ ":" ++ babelTarget.key
    | some l => l ++ ":" ++ babelTarget.key
  ⟨babelTarget, originalName, req, name, loc2⟩

/-- Claim C10: for every single-entry dependency built from target `t`,
request `r` and original name `n`: the stored request is exactly `r`
(untouched, in particular untagged by this constructor) when `r` starts with
the dev-server client head and `t.getTargetedRequest r` otherwise; the
dependency's name is `t.getTargetedAssetName n`; and in both cases (loc
provided or not) the loc ends with a colon followed by `t.key`. -/
theorem singleEntryDependency_fields (t : BabelTarget) (r : Request)
    (n : String) (loc : Option String) :
    (BabelTargetSingleEntryDependency.make t r n loc).request =
      (if strStartsWith r.toStr DEV_SERVER_CLIENT then r
        else t.getTargetedRequest r) ∧
    (BabelTargetSingleEntryDependency.make t r n loc).name =
      t.getTargetedAssetName n ∧
    ∃ s, (BabelTargetSingleEntryDependency.make t r n loc).loc =
      s ++ ":" ++ t.key := by
  refine ⟨rfl, rfl, ?_⟩
  cases loc with
  | none =>
    exact ⟨(if strStartsWith r.toStr DEV_SERVER_CLIENT then r
      else t.getTargetedRequest r).toStr, rfl⟩
  | some l => exact ⟨l, rfl⟩
